import Mathlib

/-!
Verification of the streaming chat session protocol of the DeepAgentsDemo
front-end: the SSE frame decoder and event mapper (`src/api/agent.ts`,
function `_parseSSE`) and the conversation reducer (`ChatSection.tsx`,
callbacks `handleSend` / `handleApproval`).

The TypeScript source is shallowly embedded: strings are Lean `String`
(manipulated through their `List Char` data), JavaScript `undefined` is
`Option`, JS truthiness of the `||` default operator is modelled exactly
(empty string and zero are falsy, arrays are always truthy), and the two
React handler callbacks become pure functions from an initial state, the
list of delivered events and the stream outcome to the final state.
Wall-clock timestamps (`new Date()`, `Date.now()`) are abstracted by a
single `now : Nat` supplied per turn; they decorate ids and timestamps
only and no verified property depends on them.
-/

/-! ## Character-list text helpers (JS string primitives) -/

/-- The whitespace characters relevant to `String.prototype.trim` on this
protocol's ASCII traffic (space, tab, LF, CR, vertical tab, form feed). -/
def isWsChar (c : Char) : Bool :=
  c = ' ' || c = '\t' || c = '\n' || c = '\r' || c = '\x0b' || c = '\x0c'

/-- JS `s.trim()` on character lists: drop whitespace from both ends. -/
def trimChars (s : List Char) : List Char :=
  ((s.dropWhile isWsChar).reverse.dropWhile isWsChar).reverse

/-- JS `s.trim()` on strings. -/
def jsTrim (s : String) : String :=
  String.mk (trimChars s.data)

/-- First index at which `pat` occurs as a contiguous sublist of `s`
(JS `s.indexOf(pat)`), `none` when absent. -/
def findSub (pat : List Char) : List Char → Option Nat
  | [] => if pat.isEmpty then some 0 else none
  | c :: rest =>
    if pat.isPrefixOf (c :: rest) then some 0
    else (findSub pat rest).map (· + 1)

/-- JS `s.split('\n')` on character lists. -/
def splitNl : List Char → List (List Char)
  | [] => [[]]
  | c :: rest =>
    match splitNl rest with
    | [] => [[c]]
    | l :: ls => if c = '\n' then [] :: l :: ls else (c :: l) :: ls

/-- JS `chunk.replace(/\r\n/g, '\n')`: left-to-right, non-overlapping
replacement of each CRLF pair by a single LF.  In the source this is
applied to each network chunk separately, never to the accumulated
buffer — the fact at the heart of claim C1. -/
def normalizeCRLF : List Char → List Char
  | '\r' :: '\n' :: rest => '\n' :: normalizeCRLF rest
  | c :: rest => c :: normalizeCRLF rest
  | [] => []

/-! ## Frame decoder (`_parseSSE`, agent.ts lines 105-131)

A decoded frame is the pair (event-type label, data payload text) that
survives the `if (!eventType || !eventData) continue;` filter.  JSON
parsing of the payload happens later, in the event mapper. -/

/-- Parse one blank-line-delimited block: the last `event:` line gives the
type label, the last `data:` line the payload, both trimmed; other lines
are ignored; a block missing either part is dropped. -/
def parseBlock (block : List Char) : Option (String × String) :=
  let parts := (splitNl block).foldl
    (fun (p : List Char × List Char) line =>
      if ("event:".data).isPrefixOf line then (trimChars (line.drop 6), p.2)
      else if ("data:".data).isPrefixOf line then (p.1, trimChars (line.drop 5))
      else p)
    ([], [])
  if parts.1.isEmpty ∨ parts.2.isEmpty then none
  else some (String.mk parts.1, String.mk parts.2)

/-- The `while ((blockEnd = buffer.indexOf('\n\n')) !== -1)` loop: split the
buffer at each first occurrence of a blank line, emit the frames of the
complete blocks, and return the leftover text after the last delimiter.
`acc` is the prefix of the current block scanned so far. -/
def scanFrames : List Char → List Char → List (String × String) × List Char
  | acc, '\n' :: '\n' :: rest =>
    let r := scanFrames [] rest
    ((parseBlock acc).toList ++ r.1, r.2)
  | acc, c :: rest => scanFrames (acc ++ [c]) rest
  | acc, [] => ([], acc)

/-- One iteration of the read loop: CRLF-normalize the incoming chunk (the
buffer itself is not re-normalized), append it to the buffer, and drain
all complete frames. -/
def feedChunk (buffer : List Char) (chunk : List Char) :
    List (String × String) × List Char :=
  scanFrames [] (buffer ++ normalizeCRLF chunk)

/-- Decode a whole sequence of text chunks, concatenating the frames each
chunk completes.  Leftover buffered text at stream end is discarded, as in
the source (the loop just breaks on `done`). -/
def runDecoder (chunks : List String) : List (String × String) :=
  (chunks.foldl
    (fun acc ch =>
      let r := feedChunk acc.2 ch.data
      (acc.1 ++ r.1, r.2))
    ([], [])).1

/-! ## Thinking-span stripper (`ChatSection.tsx` token case)

`rawContent.replace(/<think>[\s\S]*?<\/think>/g, '')` removes, left to
right, each `<think>` together with the minimal text up to the first
following `</think>`; an opening tag with no later closing tag matches
nothing and is left in place (and so is every later opening tag, since no
closing tag follows it either).  `.replace(/<think>[\s\S]*$/, '')` then
removes everything from the first remaining `<think>` to the end, and
`.trim()` finishes.  The fuel argument (one unit per removed pair, each
pair consuming at least 15 characters) makes the recursion structural;
`s.length + 1` units are always sufficient. -/

def stripPairsGo : Nat → List Char → List Char
  | 0, s => s
  | fuel + 1, s =>
    match findSub ("<think>".data) s with
    | none => s
    | some i =>
      let rest := s.drop (i + 7)
      match findSub ("</think>".data) rest with
      | none => s
      | some j => s.take i ++ stripPairsGo fuel (rest.drop (j + 8))

/-- The global non-greedy pair-removal pass. -/
def stripPairs (s : List Char) : List Char :=
  stripPairsGo (s.length + 1) s

/-- The unterminated-tag pass: remove from the first `<think>` to the end. -/
def stripUnclosed (s : List Char) : List Char :=
  match findSub ("<think>".data) s with
  | none => s
  | some i => s.take i

/-- The full derivation of the displayed buffer from the raw token text:
paired spans removed, then any unterminated span, then `trim()`. -/
def stripThink (s : String) : String :=
  String.mk (trimChars (stripUnclosed (stripPairs s.data)))

/-! ## Event mapper (`_parseSSE`, agent.ts lines 133-157)

`JSON.parse` itself is abstracted: `ParsedPayload` is the shape of its
result, every server-defined field optional (`none` = the key is absent /
the access yields `undefined`).  The `jsOr*` helpers are the `||` default
operator at the types at which the source applies it: for strings the
empty string is falsy, for numbers zero is falsy, and an array — even an
empty one — is always truthy. -/

/-- JS `a || d` where `a : string | undefined` and `d` is a string. -/
def jsOrStr : Option String → String → String
  | some s, d => if s = "" then d else s
  | none, d => d

/-- JS `a || b` where both operands may be `undefined`
(`parsed.action || parsed.name`, `event.action || event.name`,
`skill?.name || event.name`). -/
def jsOrOptStr : Option String → Option String → Option String
  | some s, b => if s = "" then b else some s
  | none, b => b

/-- JS `a || d` where `a : number | undefined` and `d` is a number. -/
def jsOrNat : Option Nat → Nat → Nat
  | some n, d => if n = 0 then d else n
  | none, d => d

/-- JS `a || d` where `a` is an array or `undefined`: any array, empty
included, is truthy. -/
def jsOrList {α : Type} (a : Option (List α)) (d : List α) : List α :=
  a.getD d

/-- One entry of `parsed.action_requests`; the argument record is opaque
to the core (only ever re-serialized for display). -/
structure ActionRequest where
  name : String
  args : String
  description : String
deriving DecidableEq

/-- One entry of `parsed.review_configs`. -/
structure ReviewConfig where
  allowed_decisions : Option (List String)
deriving DecidableEq

/-- The result of `JSON.parse(eventData)`, restricted to the fields the
mapper reads; `none` models an absent key. -/
structure ParsedPayload where
  content : Option String := none
  id : Option String := none
  name : Option String := none
  skillId : Option String := none
  icon : Option String := none
  action : Option String := none
  input : Option String := none
  output : Option String := none
  message : Option String := none
  duration : Option Nat := none
  input_tokens : Option Nat := none
  output_tokens : Option Nat := none
  total_tokens : Option Nat := none
  reasoning_tokens : Option Nat := none
  action_requests : Option (List ActionRequest) := none
  review_configs : Option (List ReviewConfig) := none
deriving DecidableEq

/-- The payload of an `interrupt` event as stored by the reducer. -/
structure InterruptInfo where
  actionRequests : List ActionRequest
  allowedDecisions : List String
deriving DecidableEq

/-- The typed application events (`AgentEvent` union in agent.ts).  The
interface declares `id`, `name` and `action` of the tool events as plain
strings, but the mapper copies `parsed.id` / `parsed.name` with no `||`
default, so at runtime they can be `undefined`: those fields are `Option`
here.  All other fields pass through a `||` default and are total. -/
inductive AgentEvent where
  | token (content : String)
  | tool_start (id : Option String) (name : Option String)
      (skillId : String) (icon : String) (action : Option String)
      (input : String)
  | tool_end (id : Option String) (name : Option String)
      (output : String) (duration : Nat)
  | error (message : String)
  | done
  | interrupt (info : InterruptInfo)
  | usage (inputTokens outputTokens totalTokens reasoningTokens : Nat)
deriving DecidableEq

/-- The `switch (eventType)` of `_parseSSE`: translate a frame's type
label and parsed payload into an application event; unknown labels are
ignored. -/
def mapEvent (eventType : String) (p : ParsedPayload) : Option AgentEvent :=
  match eventType with
  | "token" => some (.token (jsOrStr p.content ""))
  | "tool_start" =>
    some (.tool_start p.id p.name (jsOrStr p.skillId "api")
      (jsOrStr p.icon "🔧") (jsOrOptStr p.action p.name)
      (jsOrStr p.input ""))
  | "tool_end" =>
    some (.tool_end p.id p.name (jsOrStr p.output "")
      (jsOrNat p.duration 0))
  | "error" => some (.error (jsOrStr p.message "Unknown error"))
  | "done" => some .done
  | "interrupt" =>
    some (.interrupt
      { actionRequests := jsOrList p.action_requests []
        allowedDecisions :=
          jsOrList ((p.review_configs.bind List.head?).bind
            ReviewConfig.allowed_decisions) ["approve", "reject"] })
  | "usage" =>
    some (.usage (jsOrNat p.input_tokens 0) (jsOrNat p.output_tokens 0)
      (jsOrNat p.total_tokens 0) (jsOrNat p.reasoning_tokens 0))
  | _ => none

/-- A payload with every optional field absent. -/
def emptyPayload : ParsedPayload := {}

/-- Whether every field the corresponding TypeScript interface declares as
a plain string is actually present on the emitted event. -/
def fullyPopulated : AgentEvent → Bool
  | .tool_start id name _ _ action _ => id.isSome && name.isSome && action.isSome
  | .tool_end id name _ _ => id.isSome && name.isSome
  | _ => true

/-! ## Conversation reducer state (`ChatSection.tsx`)

The component's reactive state plus the companion refs (`tracesRef`,
`interruptRef`) form `ChatState`; the two turn-local accumulators of each
handler (`rawContent`, `fullContent`) form `TurnLocals`. -/

/-- A skill catalog entry, restricted to the fields the reducer reads. -/
structure Skill where
  id : String
  name : String
  icon : String
deriving DecidableEq

inductive TraceStatus where
  | running
  | done
deriving DecidableEq

/-- An inline per-turn trace item.  `id` and `name` come from tool-event
fields the mapper may leave absent, so they are `Option`. -/
structure TraceItem where
  id : Option String
  name : Option String
  icon : String
  status : TraceStatus
  duration : Option Nat
deriving DecidableEq

inductive ToolCallStatus where
  | pending
  | running
  | success
  | errored
deriving DecidableEq

/-- An external tool-call-panel record (`ToolCall` in ToolCallsPanel.tsx);
`startTime`/`endTime` are abstracted wall-clock instants. -/
structure ToolCall where
  id : Option String
  skillId : String
  skillName : Option String
  skillIcon : String
  action : Option String
  status : ToolCallStatus
  startTime : Nat
  endTime : Option Nat
  duration : Option Nat
  input : String
  output : Option String
deriving DecidableEq

inductive Role where
  | user
  | agent
deriving DecidableEq

/-- A finalized conversation entry. -/
structure Message where
  id : String
  role : Role
  content : String
  timestamp : Nat
  traces : Option (List TraceItem)
deriving DecidableEq

/-- The additive session token counters. -/
structure TokenCounters where
  input : Nat
  output : Nat
  total : Nat
  reasoning : Nat
deriving DecidableEq

/-- The chat component's state: reactive state plus the companion refs. -/
structure ChatState where
  messages : List Message
  input : String
  isTyping : Bool
  toolCalls : List ToolCall
  activeToolId : Option String
  streamingContent : String
  activeTraces : List TraceItem
  tracesRef : List TraceItem
  pendingInterrupt : Option InterruptInfo
  sessionTokens : TokenCounters
  interruptRef : Bool
deriving DecidableEq

/-- The turn-local mutable accumulators of `handleSend`/`handleApproval`. -/
structure TurnLocals where
  rawContent : String
  fullContent : String
deriving DecidableEq

/-- How the awaited send operation returned: normally, or by a thrown
error (`aborted` is `controller.signal.aborted` at catch time, `errMsg`
the derived message text).  Events delivered before the throw are still
applied. -/
inductive StreamOutcome where
  | ok
  | exn (aborted : Bool) (errMsg : String)
deriving DecidableEq

inductive Decision where
  | approve
  | reject
deriving DecidableEq

/-! ## The event callback (the `switch (event.type)` shared verbatim by
`handleSend` and `handleApproval`) -/

/-- Apply one streamed event to the component state and turn locals. -/
def applyEvent (skills : List Skill) (now : Nat)
    (sl : ChatState × TurnLocals) (e : AgentEvent) :
    ChatState × TurnLocals :=
  let s := sl.1
  let loc := sl.2
  match e with
  | .token c =>
    let raw := loc.rawContent ++ c
    let full := stripThink raw
    ({ s with streamingContent := full },
     { rawContent := raw, fullContent := full })
  | .tool_start id name skillId icon action inp =>
    let skill := skills.find? (fun sk => sk.id == skillId)
    let newTool : ToolCall :=
      { id := id, skillId := skillId
        skillName := jsOrOptStr (skill.map Skill.name) name
        skillIcon := jsOrStr (skill.map Skill.icon) icon
        action := action, status := .running, startTime := now
        endTime := none, duration := none, input := inp, output := none }
    let newTrace : TraceItem :=
      { id := id, name := jsOrOptStr action name
        icon := jsOrStr (skill.map Skill.icon) icon
        status := .running, duration := none }
    ({ s with activeToolId := some skillId
              toolCalls := s.toolCalls ++ [newTool]
              tracesRef := s.tracesRef ++ [newTrace]
              activeTraces := s.tracesRef ++ [newTrace] }, loc)
  | .tool_end id _name output duration =>
    let toolCalls := s.toolCalls.map (fun tc =>
      if tc.id == id then
        { tc with status := .success, endTime := some now
                  duration := some duration, output := some output }
      else tc)
    let traces := s.tracesRef.map (fun t =>
      if t.id == id then { t with status := .done, duration := some duration }
      else t)
    ({ s with toolCalls := toolCalls, activeToolId := none
              tracesRef := traces, activeTraces := traces }, loc)
  | .error m =>
    let full := loc.fullContent ++ "\n\n⚠️ Error: " ++ m
    ({ s with streamingContent := full }, { loc with fullContent := full })
  | .usage a b c d =>
    ({ s with sessionTokens :=
        { input := s.sessionTokens.input + a
          output := s.sessionTokens.output + b
          total := s.sessionTokens.total + c
          reasoning := s.sessionTokens.reasoning + d } }, loc)
  | .interrupt info =>
    ({ s with interruptRef := true, pendingInterrupt := some info }, loc)
  | .done => (s, loc)

/-- Fold the stream's events, in arrival order, over state and locals. -/
def runEvents (skills : List Skill) (now : Nat)
    (sl : ChatState × TurnLocals) (events : List AgentEvent) :
    ChatState × TurnLocals :=
  events.foldl (applyEvent skills now) sl

/-! ## `handleSend` (ChatSection.tsx lines 83-243) -/

/-- The timeout-specific fallback (`controller.signal.aborted` with an
empty buffer). -/
def timeoutText : String :=
  "⚠️ Request timed out after 60 seconds. The backend may be overloaded — try again."

/-- The generic transport-failure fallback prefix. -/
def backendFailText (errMsg : String) : String :=
  "⚠️ Could not reach the agent backend.\n\n" ++ errMsg

/-- The empty-buffer finalization fallback of `handleSend`. -/
def noResponseText : String :=
  "⚠️ No response received from the agent. The backend may need to be restarted."

/-- The local message produced when no session exists. -/
def noSessionMessage (now : Nat) : Message :=
  { id := "error-" ++ toString now, role := .agent
    content := "⚠️ No agent session found. Please click \"Build New Agent\" and try again."
    timestamp := now, traces := none }

/-- The user's own message, appended before the stream starts. -/
def userMessage (content : String) (now : Nat) : Message :=
  { id := "user-" ++ toString now, role := .user, content := content
    timestamp := now, traces := none }

/-- The state just after `handleSend` passes its guards: user message
appended, input cleared, "is responding" set, streaming buffer cleared,
per-turn trace list and interrupt slot reset. -/
def initSend (s : ChatState) (inp : String) (now : Nat) : ChatState :=
  { s with messages := s.messages ++ [userMessage inp now]
           input := "", isTyping := true, streamingContent := ""
           tracesRef := [], activeTraces := []
           interruptRef := false, pendingInterrupt := none }

/-- The `catch` block of `handleSend`: on a thrown error, substitute the
timeout fallback when aborted with an empty buffer, otherwise keep a
non-empty buffer or substitute the generic transport fallback. -/
def resolveSendCatch (outcome : StreamOutcome) (full : String) : String :=
  match outcome with
  | .ok => full
  | .exn aborted errMsg =>
    if aborted ∧ full = "" then timeoutText
    else if full = "" then backendFailText errMsg
    else full

/-- Freeze the trace list: every item's status forced to `done`
(`finalTraces = tracesRef.current.map(t => ({ ...t, status: 'done' }))`). -/
def freezeTraces (traces : List TraceItem) : List TraceItem :=
  traces.map (fun t => { t with status := TraceStatus.done })

/-- The finalization tail of `handleSend`: default an empty buffer, build
the agent message carrying the frozen traces (only when non-empty), clear
the per-turn state and drop "is responding". -/
def finalizeSend (s : ChatState) (full : String) (now : Nat) : ChatState :=
  let full := if full = "" then noResponseText else full
  let finalTraces := freezeTraces s.tracesRef
  { s with
      messages := s.messages ++
        [{ id := "agent-" ++ toString now, role := .agent, content := full
           timestamp := now
           traces := if finalTraces.length > 0 then some finalTraces else none }]
      tracesRef := [], activeTraces := [], streamingContent := ""
      isTyping := false }

/-- `handleSend` as a function of the initial state, the events the stream
delivered before returning or throwing, and how the await ended. -/
def handleSend (skills : List Skill) (sessionId : Option String) (now : Nat)
    (events : List AgentEvent) (outcome : StreamOutcome)
    (s : ChatState) : ChatState :=
  if jsTrim s.input = "" ∨ s.isTyping then s
  else
    match sessionId with
    | none => { s with messages := s.messages ++ [noSessionMessage now] }
    | some _ =>
      let r := runEvents skills now (initSend s s.input now, ⟨"", ""⟩) events
      let full := resolveSendCatch outcome r.2.fullContent
      if r.1.interruptRef then r.1
      else finalizeSend r.1 full now

/-! ## `handleApproval` (ChatSection.tsx lines 245-328)

The approval stream's `catch` block only logs, so a thrown error changes
no state beyond the events already applied; the outcome therefore does
not appear as a parameter. -/

/-- The reject-decision fallback text. -/
def rejectedText : String := "🚫 Tool execution was rejected by the user."

/-- The empty-buffer finalization fallback of `handleApproval`. -/
def approvalDoneText : String := "✅ Done."

/-- The finalization tail of `handleApproval`: on a reject decision an
empty buffer becomes the rejected-text fallback, any remaining empty
buffer becomes the done-text fallback, and the frozen traces are attached
exactly as in `finalizeSend`. -/
def finalizeApproval (s : ChatState) (full0 : String) (decision : Decision)
    (now : Nat) : ChatState :=
  let finalTraces := freezeTraces s.tracesRef
  let full :=
    match decision with
    | .reject => if full0 = "" then rejectedText else full0
    | .approve => full0
  { s with
      messages := s.messages ++
        [{ id := "agent-" ++ toString now, role := .agent
           content := if full = "" then approvalDoneText else full
           timestamp := now
           traces := if finalTraces.length > 0 then some finalTraces else none }]
      tracesRef := [], activeTraces := [], streamingContent := ""
      isTyping := false }

/-- `handleApproval` as a function of the decision, the delivered events
and the initial state.  The pending interrupt and its ref are cleared
immediately, before the approval request streams. -/
def handleApproval (skills : List Skill) (sessionId : Option String)
    (now : Nat) (decision : Decision) (events : List AgentEvent)
    (s : ChatState) : ChatState :=
  match sessionId with
  | none => s
  | some _ =>
    let r := runEvents skills now
      ({ s with pendingInterrupt := none, interruptRef := false }, ⟨"", ""⟩)
      events
    if r.1.interruptRef then r.1
    else finalizeApproval r.1 r.2.fullContent decision now

/-- Whether an event is an `interrupt`. -/
def isInterruptEv : AgentEvent → Bool
  | .interrupt _ => true
  | _ => false

/-- Whether an event is a `tool_start`. -/
def isToolStartEv : AgentEvent → Bool
  | .tool_start _ _ _ _ _ _ => true
  | _ => false

/-- Concatenation of a list of string fragments. -/
def concatStrs (l : List String) : String := l.foldr (· ++ ·) ""

/-- An empty chat state, used by the concrete witnesses: no messages, no
turn in flight, zeroed counters. -/
def initialChatState : ChatState :=
  { messages := [], input := "", isTyping := false, toolCalls := []
    activeToolId := none, streamingContent := "", activeTraces := []
    tracesRef := [], pendingInterrupt := none
    sessionTokens := ⟨0, 0, 0, 0⟩, interruptRef := false }

/-- Modelled from the claim's words, for comparison with the source: the
displayed buffer as C4 literally states it — the concatenated raw text
with paired spans removed and any unterminated open span removed, and
nothing else. -/
def specDisplayedBuffer (raw : String) : String :=
  String.mk (stripUnclosed (stripPairs raw.data))

/-! ## Shared facts about the event fold -/

theorem runEvents_nil (skills : List Skill) (now : Nat)
    (sl : ChatState × TurnLocals) : runEvents skills now sl [] = sl := rfl

theorem runEvents_cons (skills : List Skill) (now : Nat)
    (sl : ChatState × TurnLocals) (e : AgentEvent) (es : List AgentEvent) :
    runEvents skills now sl (e :: es) =
      runEvents skills now (applyEvent skills now sl e) es := rfl

theorem applyEvent_messages (skills : List Skill) (now : Nat)
    (sl : ChatState × TurnLocals) (e : AgentEvent) :
    ((applyEvent skills now sl e).1).messages = sl.1.messages := by
  cases e <;> rfl

theorem applyEvent_isTyping (skills : List Skill) (now : Nat)
    (sl : ChatState × TurnLocals) (e : AgentEvent) :
    ((applyEvent skills now sl e).1).isTyping = sl.1.isTyping := by
  cases e <;> rfl

theorem applyEvent_interruptRef (skills : List Skill) (now : Nat)
    (sl : ChatState × TurnLocals) (e : AgentEvent) :
    ((applyEvent skills now sl e).1).interruptRef =
      (sl.1.interruptRef || isInterruptEv e) := by
  cases e <;> simp [applyEvent, isInterruptEv]

theorem applyEvent_pendingInterrupt_isSome (skills : List Skill) (now : Nat)
    (sl : ChatState × TurnLocals) (e : AgentEvent) :
    ((applyEvent skills now sl e).1).pendingInterrupt.isSome =
      (sl.1.pendingInterrupt.isSome || isInterruptEv e) := by
  cases e <;> simp [applyEvent, isInterruptEv]

theorem applyEvent_pendingInterrupt_of_not (skills : List Skill) (now : Nat)
    (sl : ChatState × TurnLocals) (e : AgentEvent)
    (h : isInterruptEv e = false) :
    ((applyEvent skills now sl e).1).pendingInterrupt =
      sl.1.pendingInterrupt := by
  cases e <;> simp_all [applyEvent, isInterruptEv]

theorem applyEvent_tracesRef_of_not_tool (skills : List Skill) (now : Nat)
    (sl : ChatState × TurnLocals) (e : AgentEvent)
    (h1 : isToolStartEv e = false) (h2 : sl.1.tracesRef = []) :
    ((applyEvent skills now sl e).1).tracesRef = [] := by
  cases e <;> simp_all [applyEvent, isToolStartEv]

theorem runEvents_messages (skills : List Skill) (now : Nat)
    (sl : ChatState × TurnLocals) (events : List AgentEvent) :
    ((runEvents skills now sl events).1).messages = sl.1.messages := by
  induction events generalizing sl with
  | nil => rfl
  | cons e es ih =>
    rw [runEvents_cons, ih, applyEvent_messages]

theorem runEvents_isTyping (skills : List Skill) (now : Nat)
    (sl : ChatState × TurnLocals) (events : List AgentEvent) :
    ((runEvents skills now sl events).1).isTyping = sl.1.isTyping := by
  induction events generalizing sl with
  | nil => rfl
  | cons e es ih =>
    rw [runEvents_cons, ih, applyEvent_isTyping]

theorem runEvents_interruptRef (skills : List Skill) (now : Nat)
    (sl : ChatState × TurnLocals) (events : List AgentEvent) :
    ((runEvents skills now sl events).1).interruptRef =
      (sl.1.interruptRef || events.any isInterruptEv) := by
  induction events generalizing sl with
  | nil => simp [runEvents_nil]
  | cons e es ih =>
    rw [runEvents_cons, ih, applyEvent_interruptRef]
    simp [Bool.or_assoc]

theorem runEvents_pendingInterrupt_isSome (skills : List Skill) (now : Nat)
    (sl : ChatState × TurnLocals) (events : List AgentEvent) :
    ((runEvents skills now sl events).1).pendingInterrupt.isSome =
      (sl.1.pendingInterrupt.isSome || events.any isInterruptEv) := by
  induction events generalizing sl with
  | nil => simp [runEvents_nil]
  | cons e es ih =>
    rw [runEvents_cons, ih, applyEvent_pendingInterrupt_isSome]
    simp [Bool.or_assoc]

theorem runEvents_pendingInterrupt_of_not (skills : List Skill) (now : Nat)
    (sl : ChatState × TurnLocals) (events : List AgentEvent)
    (h : events.any isInterruptEv = false) :
    ((runEvents skills now sl events).1).pendingInterrupt =
      sl.1.pendingInterrupt := by
  induction events generalizing sl with
  | nil => rfl
  | cons e es ih =>
    simp only [List.any_cons, Bool.or_eq_false_iff] at h
    rw [runEvents_cons, ih _ h.2, applyEvent_pendingInterrupt_of_not _ _ _ _ h.1]

theorem runEvents_tracesRef_of_no_tool (skills : List Skill) (now : Nat)
    (sl : ChatState × TurnLocals) (events : List AgentEvent)
    (h : events.any isToolStartEv = false) (h2 : sl.1.tracesRef = []) :
    ((runEvents skills now sl events).1).tracesRef = [] := by
  induction events generalizing sl with
  | nil => exact h2
  | cons e es ih =>
    simp only [List.any_cons, Bool.or_eq_false_iff] at h
    rw [runEvents_cons]
    exact ih _ h.2 (applyEvent_tracesRef_of_not_tool _ _ _ _ h.1 h2)

theorem applyEvent_token (skills : List Skill) (now : Nat)
    (sl : ChatState × TurnLocals) (c : String) :
    applyEvent skills now sl (.token c) =
      ({ sl.1 with streamingContent := stripThink (sl.2.rawContent ++ c) },
       { rawContent := sl.2.rawContent ++ c
         fullContent := stripThink (sl.2.rawContent ++ c) }) := rfl

/-- Folding a pure token stream: the raw accumulator is the concatenation
of the fragments, and both the `fullContent` local and the displayed
`streamingContent` are its think-stripped, trimmed image. -/
theorem runEvents_tokens (skills : List Skill) (now : Nat)
    (cs : List String) (sl : ChatState × TurnLocals)
    (h1 : sl.2.fullContent = stripThink sl.2.rawContent)
    (h2 : sl.1.streamingContent = stripThink sl.2.rawContent) :
    (runEvents skills now sl (cs.map AgentEvent.token)).2.rawContent =
        sl.2.rawContent ++ concatStrs cs ∧
    (runEvents skills now sl (cs.map AgentEvent.token)).2.fullContent =
        stripThink (sl.2.rawContent ++ concatStrs cs) ∧
    (runEvents skills now sl (cs.map AgentEvent.token)).1.streamingContent =
        stripThink (sl.2.rawContent ++ concatStrs cs) := by
  induction cs generalizing sl with
  | nil =>
    refine ⟨?_, ?_, ?_⟩ <;>
      simp [runEvents_nil, concatStrs, String.append_empty, h1, h2]
  | cons c cs ih =>
    rw [List.map_cons, runEvents_cons, applyEvent_token]
    have := ih ({ sl.1 with streamingContent := stripThink (sl.2.rawContent ++ c) },
      { rawContent := sl.2.rawContent ++ c
        fullContent := stripThink (sl.2.rawContent ++ c) }) rfl rfl
    simpa [concatStrs, String.append_assoc] using this

theorem applyEvent_usage (skills : List Skill) (now : Nat)
    (sl : ChatState × TurnLocals) (a b c d : Nat) :
    applyEvent skills now sl (.usage a b c d) =
      ({ sl.1 with sessionTokens :=
          { input := sl.1.sessionTokens.input + a
            output := sl.1.sessionTokens.output + b
            total := sl.1.sessionTokens.total + c
            reasoning := sl.1.sessionTokens.reasoning + d } }, sl.2) := rfl

/-- Folding a stream of `usage` events accumulates every component
additively. -/
theorem runEvents_usages (skills : List Skill) (now : Nat)
    (us : List (Nat × Nat × Nat × Nat)) (sl : ChatState × TurnLocals) :
    (runEvents skills now sl
        (us.map fun u => AgentEvent.usage u.1 u.2.1 u.2.2.1 u.2.2.2)).1.sessionTokens =
      { input := sl.1.sessionTokens.input + (us.map fun u => u.1).sum
        output := sl.1.sessionTokens.output + (us.map fun u => u.2.1).sum
        total := sl.1.sessionTokens.total + (us.map fun u => u.2.2.1).sum
        reasoning := sl.1.sessionTokens.reasoning + (us.map fun u => u.2.2.2).sum } := by
  induction us generalizing sl with
  | nil => simp [runEvents_nil]
  | cons u us ih =>
    rw [List.map_cons, runEvents_cons, applyEvent_usage, ih]
    simp [Nat.add_assoc]

/-- `handleSend` with a live session, non-blank input and no turn already
in flight: the guards pass and the handler runs the stream then branches
on the interrupt ref. -/
theorem handleSend_eq (skills : List Skill) (sid : String) (now : Nat)
    (events : List AgentEvent) (outcome : StreamOutcome) (s : ChatState)
    (h1 : jsTrim s.input ≠ "") (h2 : s.isTyping = false) :
    handleSend skills (some sid) now events outcome s =
      (if (runEvents skills now (initSend s s.input now, ⟨"", ""⟩) events).1.interruptRef
       then (runEvents skills now (initSend s s.input now, ⟨"", ""⟩) events).1
       else finalizeSend
         (runEvents skills now (initSend s s.input now, ⟨"", ""⟩) events).1
         (resolveSendCatch outcome
           (runEvents skills now (initSend s s.input now, ⟨"", ""⟩) events).2.fullContent)
         now) := by
  simp [handleSend, h1, h2]

/-- `handleApproval` with a live session: clear the pending interrupt,
run the stream, then branch on the interrupt ref. -/
theorem handleApproval_eq (skills : List Skill) (sid : String) (now : Nat)
    (d : Decision) (events : List AgentEvent) (s : ChatState) :
    handleApproval skills (some sid) now d events s =
      (if (runEvents skills now
            ({ s with pendingInterrupt := none, interruptRef := false }, ⟨"", ""⟩)
            events).1.interruptRef
       then (runEvents skills now
          ({ s with pendingInterrupt := none, interruptRef := false }, ⟨"", ""⟩)
          events).1
       else finalizeApproval
         (runEvents skills now
            ({ s with pendingInterrupt := none, interruptRef := false }, ⟨"", ""⟩)
            events).1
         (runEvents skills now
            ({ s with pendingInterrupt := none, interruptRef := false }, ⟨"", ""⟩)
            events).2.fullContent
         d now) := rfl

/-! ## Claim C1 — frame reassembly under arbitrary chunking -/

/-- C1: the claimed chunking-invariance of the frame decoder fails, by a
defect in the code, when a chunk boundary falls between the CR and the LF
of a CRLF blank-line delimiter.  CRLF normalization is applied to each
chunk in isolation, so the straddling CRLF survives into the buffer, the
`\n\n` delimiter scan never fires, and the frame is lost: decoding the
whole stream at once yields the token frame, while decoding the same text
split after the third byte from the end yields no frame at all. -/
theorem c1_crlf_boundary_split_loses_frame :
    "event: token\r\ndata: \x7b\"content\":\"a\"\x7d\r\n\r" ++ "\n" =
      "event: token\r\ndata: \x7b\"content\":\"a\"\x7d\r\n\r\n" ∧
    runDecoder ["event: token\r\ndata: \x7b\"content\":\"a\"\x7d\r\n\r\n"] =
      [("token", "\x7b\"content\":\"a\"\x7d")] ∧
    runDecoder ["event: token\r\ndata: \x7b\"content\":\"a\"\x7d\r\n\r", "\n"] =
      [] := by
  refine ⟨by decide, by decide, by decide⟩

/-! ## Claim C5 — event-mapper defaults for absent fields -/

/-- C5, counterexample to the claim as stated: a `tool_start` frame whose
payload parses but carries no fields is mapped to an event whose `id`,
`name` and `action` are all absent (`undefined` at runtime), so not every
declared field of the emitted event is populated. -/
theorem c5_counterexample :
    mapEvent "tool_start" emptyPayload =
      some (.tool_start none none "api" "🔧" none "") ∧
    (mapEvent "tool_start" emptyPayload).map fullyPopulated = some false := by
  refine ⟨by decide, by decide⟩

/-- C5 (amended): for a frame whose payload parses with optional fields
absent, the mapper substitutes the safe defaults — empty string for text
fields, zero for numeric counters, `"api"`/`"🔧"` for tool metadata,
`"Unknown error"` for error text, empty action list and
`["approve", "reject"]` for interrupt data — except that the `id` and
`name` of `tool_start`/`tool_end` are copied with no default (absent stays
absent) and `action` only falls back to the payload's `name`.  Unknown
labels map to nothing. -/
theorem c5_mapper_defaults :
    mapEvent "token" emptyPayload = some (.token "") ∧
    mapEvent "tool_start" { emptyPayload with name := some "web_search" } =
      some (.tool_start none (some "web_search") "api" "🔧"
        (some "web_search") "") ∧
    mapEvent "tool_end" emptyPayload = some (.tool_end none none "" 0) ∧
    mapEvent "error" emptyPayload = some (.error "Unknown error") ∧
    mapEvent "done" emptyPayload = some .done ∧
    mapEvent "interrupt" emptyPayload =
      some (.interrupt ⟨[], ["approve", "reject"]⟩) ∧
    mapEvent "usage" emptyPayload = some (.usage 0 0 0 0) ∧
    mapEvent "keepalive" emptyPayload = none := by
  refine ⟨by decide, by decide, by decide, by decide, by decide, by decide,
    by decide, by decide⟩

/-! ## Claim C9 — usage counters are strictly additive -/

/-- C9: every `usage` event adds its four counts componentwise to the
session counters (never overwriting them), and the two example events
`(10,5,15,2)` and `(3,7,10,1)` applied to zeroed counters yield
`(13,12,25,3)`. -/
theorem c9_usage_additive :
    (∀ (skills : List Skill) (now : Nat) (sl : ChatState × TurnLocals)
        (us : List (Nat × Nat × Nat × Nat)),
      (runEvents skills now sl
          (us.map fun u => AgentEvent.usage u.1 u.2.1 u.2.2.1 u.2.2.2)).1.sessionTokens =
        { input := sl.1.sessionTokens.input + (us.map fun u => u.1).sum
          output := sl.1.sessionTokens.output + (us.map fun u => u.2.1).sum
          total := sl.1.sessionTokens.total + (us.map fun u => u.2.2.1).sum
          reasoning :=
            sl.1.sessionTokens.reasoning + (us.map fun u => u.2.2.2).sum }) ∧
    (runEvents [] 0 (initialChatState, ⟨"", ""⟩)
        [.usage 10 5 15 2, .usage 3 7 10 1]).1.sessionTokens =
      ⟨13, 12, 25, 3⟩ := by
  exact ⟨fun skills now sl us => runEvents_usages skills now us sl, by decide⟩

/-! ## Claim C4 — the displayed buffer strips thinking spans -/

/-- C4, counterexample to the claim as stated: the source additionally
applies `.trim()`.  For the single token `" A "` (no thinking delimiters
at all) the claim predicts a displayed buffer of `" A "`, but the code
displays `"A"`. -/
theorem c4_counterexample :
    (runEvents [] 0 (initialChatState, ⟨"", ""⟩)
        [AgentEvent.token " A "]).1.streamingContent = "A" ∧
    specDisplayedBuffer " A " = " A " ∧
    ("A" : String) ≠ " A " := by
  refine ⟨by decide, by decide, by decide⟩

/-- C4 (amended): for every sequence of `token` events — hence under any
chunking of a fixed raw text — the displayed buffer is the concatenated
raw text with every paired span removed, any unterminated open span
removed to end-of-buffer, and leading/trailing whitespace trimmed; the
claim's two examples hold unchanged. -/
theorem c4_displayed_buffer_strips_thinking :
    (∀ (skills : List Skill) (now : Nat) (s : ChatState) (inp : String)
        (cs : List String),
      (runEvents skills now (initSend s inp now, ⟨"", ""⟩)
          (cs.map AgentEvent.token)).1.streamingContent =
        stripThink (concatStrs cs) ∧
      (runEvents skills now (initSend s inp now, ⟨"", ""⟩)
          (cs.map AgentEvent.token)).2.fullContent =
        stripThink (concatStrs cs)) ∧
    stripThink "A<think>B</think>C" = "AC" ∧
    stripThink "A<think>B" = "A" := by
  refine ⟨?_, by decide, by decide⟩
  intro skills now s inp cs
  have h := runEvents_tokens skills now cs (initSend s inp now, ⟨"", ""⟩)
    rfl rfl
  rw [show (⟨"", ""⟩ : TurnLocals).rawContent = "" from rfl,
    String.empty_append] at h
  exact ⟨h.2.2, h.2.1⟩

/-! ## Claim C2 — turn finalization on `done` / clean stream end -/

/-- C2: when a send turn's stream ends normally with no interrupt event,
the reducer appends exactly one agent-role message (after the user's own
message) whose content is the accumulated displayed buffer, or the fixed
no-response fallback when that buffer is empty, then clears the streaming
buffer and the live trace list, drops "is responding", and leaves no
pending interrupt. -/
theorem c2_done_finalizes_single_agent_message
    (skills : List Skill) (sid : String) (now : Nat) (s : ChatState)
    (events : List AgentEvent)
    (h1 : jsTrim s.input ≠ "") (h2 : s.isTyping = false)
    (h3 : events.any isInterruptEv = false) :
    (handleSend skills (some sid) now events .ok s).messages.map
        (fun m => (m.role, m.content)) =
      s.messages.map (fun m => (m.role, m.content)) ++
        [(Role.user, s.input),
         (Role.agent,
          if (runEvents skills now (initSend s s.input now, ⟨"", ""⟩)
                events).2.fullContent = ""
          then noResponseText
          else (runEvents skills now (initSend s s.input now, ⟨"", ""⟩)
                events).2.fullContent)] ∧
    (handleSend skills (some sid) now events .ok s).streamingContent = "" ∧
    (handleSend skills (some sid) now events .ok s).activeTraces = [] ∧
    (handleSend skills (some sid) now events .ok s).tracesRef = [] ∧
    (handleSend skills (some sid) now events .ok s).isTyping = false ∧
    (handleSend skills (some sid) now events .ok s).pendingInterrupt = none := by
  rw [handleSend_eq skills sid now events .ok s h1 h2]
  have hIr : (runEvents skills now (initSend s s.input now, ⟨"", ""⟩)
      events).1.interruptRef = false := by
    rw [runEvents_interruptRef]
    simp [initSend, h3]
  rw [if_neg (by simp [hIr])]
  have hMsgs := runEvents_messages skills now
    (initSend s s.input now, ⟨"", ""⟩) events
  have hPend := runEvents_pendingInterrupt_of_not skills now
    (initSend s s.input now, ⟨"", ""⟩) events h3
  refine ⟨?_, rfl, rfl, rfl, rfl, ?_⟩
  · simp only [finalizeSend]
    rw [hMsgs]
    simp [initSend, userMessage, resolveSendCatch]
  · simp only [finalizeSend]
    rw [hPend]
    rfl

/-- Witness for C2 at a concrete input: token events producing
`"Hi there"` followed by `done` finalize into exactly one agent message
with that content, no typing state and no pending interrupt. -/
theorem c2_witness :
    (handleSend [] (some "sid") 0 [AgentEvent.token "Hi there", .done] .ok
        { initialChatState with input := "hi" }).messages.map
        (fun m => (m.role, m.content)) =
      [(Role.user, "hi"), (Role.agent, "Hi there")] ∧
    (handleSend [] (some "sid") 0 [AgentEvent.token "Hi there", .done] .ok
        { initialChatState with input := "hi" }).isTyping = false ∧
    (handleSend [] (some "sid") 0 [AgentEvent.token "Hi there", .done] .ok
        { initialChatState with input := "hi" }).pendingInterrupt = none := by
  have h := c2_done_finalizes_single_agent_message [] "sid" 0
    { initialChatState with input := "hi" }
    [AgentEvent.token "Hi there", .done] (by decide) rfl (by decide)
  have hbuf : (runEvents [] 0
      (initSend { initialChatState with input := "hi" } "hi" 0, ⟨"", ""⟩)
      [AgentEvent.token "Hi there", .done]).2.fullContent = "Hi there" := by
    decide
  refine ⟨?_, h.2.2.2.2.1, h.2.2.2.2.2⟩
  have h1 := h.1
  rw [hbuf] at h1
  simpa using h1

/-! ## Claim C3 — interrupt gating -/

/-- C3: a send turn whose stream contains an `interrupt` event finalizes
no agent message — the message list gains only the user's message — keeps
"is responding" true and leaves an interrupt pending; submitting an
approval decision clears the pending interrupt, and when the resulting
approval stream terminates without a further interrupt the turn finalizes:
exactly one agent-role message is appended and "is responding" drops to
false. -/
theorem c3_interrupt_gating
    (skills skills2 : List Skill) (sid sid2 : String) (now now2 : Nat)
    (s s2 : ChatState) (events events2 : List AgentEvent)
    (outcome : StreamOutcome) (d : Decision)
    (h1 : jsTrim s.input ≠ "") (h2 : s.isTyping = false)
    (h3 : events.any isInterruptEv = true)
    (h4 : events2.any isInterruptEv = false) :
    (handleSend skills (some sid) now events outcome s).isTyping = true ∧
    (handleSend skills (some sid) now events outcome s).messages.map
        (fun m => (m.role, m.content)) =
      s.messages.map (fun m => (m.role, m.content)) ++
        [(Role.user, s.input)] ∧
    (handleSend skills (some sid) now events outcome s).pendingInterrupt.isSome
      = true ∧
    (handleApproval skills2 (some sid2) now2 d events2 s2).pendingInterrupt
      = none ∧
    (handleApproval skills2 (some sid2) now2 d events2 s2).isTyping = false ∧
    (handleApproval skills2 (some sid2) now2 d events2 s2).messages.length
      = s2.messages.length + 1 ∧
    ((handleApproval skills2 (some sid2) now2 d events2 s2).messages.getLast?).map
        Message.role = some Role.agent := by
  rw [handleSend_eq skills sid now events outcome s h1 h2,
    handleApproval_eq skills2 sid2 now2 d events2 s2]
  have hIr : (runEvents skills now (initSend s s.input now, ⟨"", ""⟩)
      events).1.interruptRef = true := by
    rw [runEvents_interruptRef]
    simp [initSend, h3]
  rw [if_pos (by simp [hIr])]
  have hIr2 : (runEvents skills2 now2
      ({ s2 with pendingInterrupt := none, interruptRef := false }, ⟨"", ""⟩)
      events2).1.interruptRef = false := by
    rw [runEvents_interruptRef]
    simp [h4]
  rw [if_neg (by simp [hIr2])]
  have hMsgs := runEvents_messages skills now
    (initSend s s.input now, ⟨"", ""⟩) events
  have hTyping := runEvents_isTyping skills now
    (initSend s s.input now, ⟨"", ""⟩) events
  have hPend := runEvents_pendingInterrupt_isSome skills now
    (initSend s s.input now, ⟨"", ""⟩) events
  have hMsgs2 := runEvents_messages skills2 now2
    ({ s2 with pendingInterrupt := none, interruptRef := false }, ⟨"", ""⟩)
    events2
  have hPend2 := runEvents_pendingInterrupt_of_not skills2 now2
    ({ s2 with pendingInterrupt := none, interruptRef := false }, ⟨"", ""⟩)
    events2 h4
  refine ⟨?_, ?_, ?_, ?_, ?_, ?_, ?_⟩
  · rw [hTyping]; rfl
  · rw [hMsgs]; simp [initSend, userMessage]
  · rw [hPend]; simp [initSend, h3]
  · simp only [finalizeApproval]
    rw [hPend2]
  · simp [finalizeApproval]
  · simp only [finalizeApproval]
    rw [hMsgs2]
    simp
  · simp only [finalizeApproval]
    simp [List.getLast?_concat]

/-- Witness for C3 at concrete inputs: a send stream interrupted after one
token leaves the turn unfinalized with a pending interrupt, and a
subsequent approve decision whose stream ends with `done` finalizes one
agent message and clears everything. -/
theorem c3_witness :
    (handleSend [] (some "sid") 0
        [AgentEvent.token "x", .interrupt ⟨[], ["approve", "reject"]⟩] .ok
        { initialChatState with input := "go" }).isTyping = true ∧
    (handleSend [] (some "sid") 0
        [AgentEvent.token "x", .interrupt ⟨[], ["approve", "reject"]⟩] .ok
        { initialChatState with input := "go" }).pendingInterrupt.isSome
      = true ∧
    (handleApproval [] (some "sid") 1 .approve [AgentEvent.token "ok", .done]
        initialChatState).pendingInterrupt = none ∧
    (handleApproval [] (some "sid") 1 .approve [AgentEvent.token "ok", .done]
        initialChatState).isTyping = false ∧
    (handleApproval [] (some "sid") 1 .approve [AgentEvent.token "ok", .done]
        initialChatState).messages.length = 1 := by
  have h := c3_interrupt_gating [] [] "sid" "sid" 0 1
    { initialChatState with input := "go" } initialChatState
    [AgentEvent.token "x", .interrupt ⟨[], ["approve", "reject"]⟩]
    [AgentEvent.token "ok", .done] .ok .approve
    (by decide) rfl (by decide) (by decide)
  exact ⟨h.1, h.2.2.1, h.2.2.2.1, h.2.2.2.2.1, h.2.2.2.2.2.1⟩

/-! ## Claim C6 — mid-stream `error` events -/

/-- C6, counterexample to the claim as stated: the error text does not
remain in the buffer once a later `token` arrives, because the token case
recomputes the displayed buffer from the raw token accumulator alone.
For the stream `token "A"`, `error "boom"`, `token "B"`, `done` the
finalized agent message is exactly `"AB"` — the warning text is gone,
where the claim predicts it appears together with the later token
content. -/
theorem c6_counterexample :
    (handleSend [] (some "sid") 0
        [AgentEvent.token "A", .error "boom", .token "B", .done] .ok
        { initialChatState with input := "go" }).messages.map
        (fun m => (m.role, m.content)) =
      [(Role.user, "go"), (Role.agent, "AB")] ∧
    findSub ("Error".data) ("AB".data) = none := by
  refine ⟨by decide, by decide⟩

/-- C6 (amended): a mid-stream `error` event appends the error message
with the warning prefix to the displayed buffer and does not end the turn
(messages, typing state and interrupt ref are untouched, so subsequent
events still apply); however a subsequent `token` event recomputes the
displayed buffer from the accumulated raw token text alone, discarding
the appended error text, which therefore reaches the finalized agent
message only when no further `token` event follows it. -/
theorem c6_error_appends_but_tokens_overwrite :
    (∀ (skills : List Skill) (now : Nat) (sl : ChatState × TurnLocals)
        (m : String),
      (applyEvent skills now sl (.error m)).2.fullContent =
        sl.2.fullContent ++ "\n\n⚠️ Error: " ++ m ∧
      (applyEvent skills now sl (.error m)).1.streamingContent =
        sl.2.fullContent ++ "\n\n⚠️ Error: " ++ m ∧
      (applyEvent skills now sl (.error m)).1.messages = sl.1.messages ∧
      (applyEvent skills now sl (.error m)).1.isTyping = sl.1.isTyping ∧
      (applyEvent skills now sl (.error m)).1.interruptRef =
        sl.1.interruptRef) ∧
    (∀ (skills : List Skill) (now : Nat) (sl : ChatState × TurnLocals)
        (c : String),
      (applyEvent skills now sl (.token c)).2.fullContent =
        stripThink (sl.2.rawContent ++ c)) ∧
    (handleSend [] (some "sid") 0 [AgentEvent.token "A", .error "boom"] .ok
        { initialChatState with input := "go" }).messages.map
        (fun m => (m.role, m.content)) =
      [(Role.user, "go"), (Role.agent, "A\n\n⚠️ Error: boom")] := by
  refine ⟨fun skills now sl m => ⟨rfl, rfl, rfl, rfl, rfl⟩,
    fun skills now sl c => rfl, by decide⟩

/-! ## Claim C7 — cancellation fallback -/

/-- C7, counterexample to the claim as stated: an abort before any
`token` event must, per the claim, finalize with the timeout-specific
fallback text — but if a mid-stream `error` event arrived first the
buffer is non-empty at catch time and the code finalizes the error text
instead of the timeout text. -/
theorem c7_counterexample :
    (handleSend [] (some "sid") 0 [AgentEvent.error "tool failed"]
        (.exn true "AbortError") { initialChatState with input := "go" }).messages.map
        (fun m => (m.role, m.content)) =
      [(Role.user, "go"), (Role.agent, "\n\n⚠️ Error: tool failed")] ∧
    ("\n\n⚠️ Error: tool failed" : String) ≠ timeoutText := by
  refine ⟨by decide, by decide⟩

/-- C7 (amended): when a send operation is aborted by its cancellation
signal with no unresolved interrupt, the turn finalizes with exactly one
agent message; its content is the timeout-specific fallback text exactly
when the displayed buffer is empty at abort time (in particular when no
event produced visible content), and otherwise the non-empty displayed
buffer is preserved and finalized as-is. -/
theorem c7_abort_fallback
    (skills : List Skill) (sid : String) (now : Nat) (s : ChatState)
    (events : List AgentEvent) (emsg : String)
    (h1 : jsTrim s.input ≠ "") (h2 : s.isTyping = false)
    (h3 : events.any isInterruptEv = false) :
    (handleSend skills (some sid) now events (.exn true emsg) s).messages.map
        (fun m => (m.role, m.content)) =
      s.messages.map (fun m => (m.role, m.content)) ++
        [(Role.user, s.input),
         (Role.agent,
          if (runEvents skills now (initSend s s.input now, ⟨"", ""⟩)
                events).2.fullContent = ""
          then timeoutText
          else (runEvents skills now (initSend s s.input now, ⟨"", ""⟩)
                events).2.fullContent)] ∧
    (handleSend skills (some sid) now events (.exn true emsg) s).isTyping
      = false := by
  rw [handleSend_eq skills sid now events (.exn true emsg) s h1 h2]
  have hIr : (runEvents skills now (initSend s s.input now, ⟨"", ""⟩)
      events).1.interruptRef = false := by
    rw [runEvents_interruptRef]
    simp [initSend, h3]
  rw [if_neg (by simp [hIr])]
  have hMsgs := runEvents_messages skills now
    (initSend s s.input now, ⟨"", ""⟩) events
  have hResolved : resolveSendCatch (.exn true emsg)
      (runEvents skills now (initSend s s.input now, ⟨"", ""⟩)
        events).2.fullContent =
      (if (runEvents skills now (initSend s s.input now, ⟨"", ""⟩)
            events).2.fullContent = ""
       then timeoutText
       else (runEvents skills now (initSend s s.input now, ⟨"", ""⟩)
            events).2.fullContent) := by
    by_cases hb : (runEvents skills now (initSend s s.input now, ⟨"", ""⟩)
        events).2.fullContent = "" <;>
      simp [resolveSendCatch, hb]
  refine ⟨?_, rfl⟩
  have hne : (if (runEvents skills now (initSend s s.input now, ⟨"", ""⟩)
        events).2.fullContent = ""
      then timeoutText
      else (runEvents skills now (initSend s s.input now, ⟨"", ""⟩)
        events).2.fullContent) ≠ "" := by
    by_cases hb : (runEvents skills now (initSend s s.input now, ⟨"", ""⟩)
        events).2.fullContent = ""
    · simp [hb]
      decide
    · simp [hb]
  simp only [finalizeSend, hResolved]
  rw [hMsgs, if_neg hne]
  simp [initSend, userMessage]

/-- Witness for C7 at a concrete input: aborting with no events at all
finalizes exactly one agent message containing the timeout text. -/
theorem c7_witness :
    (handleSend [] (some "sid") 0 [] (.exn true "AbortError")
        { initialChatState with input := "go" }).messages.map
        (fun m => (m.role, m.content)) =
      [(Role.user, "go"), (Role.agent, timeoutText)] ∧
    (handleSend [] (some "sid") 0 [] (.exn true "AbortError")
        { initialChatState with input := "go" }).isTyping = false := by
  have h := c7_abort_fallback [] "sid" 0
    { initialChatState with input := "go" } [] "AbortError"
    (by decide) rfl (by decide)
  have hbuf : (runEvents [] 0
      (initSend { initialChatState with input := "go" } "go" 0, ⟨"", ""⟩)
      ([] : List AgentEvent)).2.fullContent = "" := by decide
  have h1 := h.1
  rw [hbuf] at h1
  refine ⟨?_, h.2⟩
  simpa using h1

/-! ## Claim C8 — tool trace pairing and unknown-id tolerance -/

/-- C8: from an empty per-turn trace list, a `tool_start` with id `t`
followed by a `tool_end` with the same id and duration `d` yields exactly
one trace item, done, with duration `d`; and a `tool_end` whose id
matches no existing trace item leaves the trace list untouched (the
update is total — the reducer cannot crash — and degrades to a no-op on
the trace items). -/
theorem c8_tool_pairing
    (skills : List Skill) (now : Nat) (sl sl2 : ChatState × TurnLocals)
    (t sk ic inp outp : String) (nm nm2 act : Option String) (d : Nat)
    (i : Option String)
    (h0 : sl.1.tracesRef = [])
    (h5 : ∀ tr ∈ sl2.1.tracesRef, tr.id ≠ i) :
    (applyEvent skills now
        (applyEvent skills now sl (.tool_start (some t) nm sk ic act inp))
        (.tool_end (some t) nm2 outp d)).1.tracesRef =
      [{ id := some t, name := jsOrOptStr act nm
         icon := jsOrStr ((skills.find? fun s2 => s2.id == sk).map Skill.icon) ic
         status := .done, duration := some d }] ∧
    (applyEvent skills now sl2 (.tool_end i nm2 outp d)).1.tracesRef =
      sl2.1.tracesRef ∧
    (applyEvent skills now sl2 (.tool_end i nm2 outp d)).1.activeTraces =
      sl2.1.tracesRef := by
  have hmap : sl2.1.tracesRef.map (fun t2 =>
      if t2.id == i
      then { t2 with status := TraceStatus.done, duration := some d }
      else t2) = sl2.1.tracesRef := by
    conv_rhs => rw [← List.map_id sl2.1.tracesRef]
    refine List.map_congr_left fun tr hm => ?_
    have hne : (tr.id == i) = false := beq_eq_false_iff_ne.mpr (h5 tr hm)
    simp [hne]
  refine ⟨?_, ?_, ?_⟩
  · simp [applyEvent, h0]
  · simpa [applyEvent] using hmap
  · simpa [applyEvent] using hmap

/-- Witness for C8 at concrete inputs: `tool_start "t1"` then
`tool_end "t1"` with duration 120 produce the single done trace item with
duration 120, and a `tool_end` for the unknown id `"tX"` changes
nothing. -/
theorem c8_witness :
    (applyEvent [] 0
        (applyEvent [] 0 (initialChatState, ⟨"", ""⟩)
          (.tool_start (some "t1") (some "web") "search" "🔍" none ""))
        (.tool_end (some "t1") none "ok" 120)).1.tracesRef =
      [{ id := some "t1", name := some "web", icon := "🔍"
         status := TraceStatus.done, duration := some 120 }] ∧
    (applyEvent [] 0 (initialChatState, ⟨"", ""⟩)
        (.tool_end (some "tX") none "ok" 120)).1.tracesRef = [] ∧
    (applyEvent [] 0 (initialChatState, ⟨"", ""⟩)
        (.tool_end (some "tX") none "ok" 120)).1.activeTraces = [] := by
  have h := c8_tool_pairing [] 0 (initialChatState, ⟨"", ""⟩)
    (initialChatState, ⟨"", ""⟩) "t1" "search" "🔍" "" "ok"
    (some "web") none none 120 (some "tX") rfl (by simp [initialChatState])
  refine ⟨?_, ?_, ?_⟩
  · rw [h.1]; decide
  · rw [h.2.1]; decide
  · rw [h.2.2]; decide

/-! ## Claim C10 — frozen traces on the finalized message -/

/-- A helper for the trace-attachment conditional: attaching the frozen
list when its length is positive is the same as attaching it when the
live list is non-empty. -/
theorem traces_attach_eq (l : List TraceItem) :
    (if (freezeTraces l).length > 0 then some (freezeTraces l) else none) =
      (if l = [] then none else some (freezeTraces l)) := by
  cases l <;> simp [freezeTraces]

/-- The traces field of the message `finalizeSend` appends. -/
theorem finalizeSend_getLast_traces (s : ChatState) (full : String)
    (now : Nat) :
    (finalizeSend s full now).messages.getLast?.map Message.traces =
      some (if s.tracesRef = [] then none
            else some (freezeTraces s.tracesRef)) := by
  simp [finalizeSend, List.getLast?_concat, traces_attach_eq]

/-- The traces field of the message `finalizeApproval` appends. -/
theorem finalizeApproval_getLast_traces (s : ChatState) (full0 : String)
    (d : Decision) (now : Nat) :
    (finalizeApproval s full0 d now).messages.getLast?.map Message.traces =
      some (if s.tracesRef = [] then none
            else some (freezeTraces s.tracesRef)) := by
  simp [finalizeApproval, List.getLast?_concat, traces_attach_eq]

/-- C10: whenever a turn finalizes — `handleSend` or `handleApproval`,
with no interrupt pending — the finalized agent message carries the live
trace list with every item's status forced to done (running items
included), and it carries a traces record at all only when that list is
non-empty: a turn with no tool invocations finalizes a message whose
traces field is absent. -/
theorem c10_frozen_traces
    (skills skills2 : List Skill) (sid sid2 : String) (now now2 : Nat)
    (s s2 : ChatState) (events events2 : List AgentEvent)
    (outcome : StreamOutcome) (d : Decision)
    (h1 : jsTrim s.input ≠ "") (h2 : s.isTyping = false)
    (h3 : events.any isInterruptEv = false)
    (h4 : events2.any isInterruptEv = false) :
    (handleSend skills (some sid) now events outcome s).messages.getLast?.map
        Message.traces =
      some (if (runEvents skills now (initSend s s.input now, ⟨"", ""⟩)
                events).1.tracesRef = []
            then none
            else some (freezeTraces
              (runEvents skills now (initSend s s.input now, ⟨"", ""⟩)
                events).1.tracesRef)) ∧
    (handleApproval skills2 (some sid2) now2 d events2 s2).messages.getLast?.map
        Message.traces =
      some (if (runEvents skills2 now2
                ({ s2 with pendingInterrupt := none, interruptRef := false },
                  ⟨"", ""⟩) events2).1.tracesRef = []
            then none
            else some (freezeTraces
              (runEvents skills2 now2
                ({ s2 with pendingInterrupt := none, interruptRef := false },
                  ⟨"", ""⟩) events2).1.tracesRef)) := by
  have hIr : (runEvents skills now (initSend s s.input now, ⟨"", ""⟩)
      events).1.interruptRef = false := by
    rw [runEvents_interruptRef]
    simp [initSend, h3]
  have hIr2 : (runEvents skills2 now2
      ({ s2 with pendingInterrupt := none, interruptRef := false }, ⟨"", ""⟩)
      events2).1.interruptRef = false := by
    rw [runEvents_interruptRef]
    simp [h4]
  have e1 : handleSend skills (some sid) now events outcome s =
      finalizeSend
        (runEvents skills now (initSend s s.input now, ⟨"", ""⟩) events).1
        (resolveSendCatch outcome
          (runEvents skills now (initSend s s.input now, ⟨"", ""⟩)
            events).2.fullContent)
        now := by
    rw [handleSend_eq skills sid now events outcome s h1 h2,
      if_neg (by simp [hIr])]
  have e2 : handleApproval skills2 (some sid2) now2 d events2 s2 =
      finalizeApproval
        (runEvents skills2 now2
          ({ s2 with pendingInterrupt := none, interruptRef := false },
            ⟨"", ""⟩) events2).1
        (runEvents skills2 now2
          ({ s2 with pendingInterrupt := none, interruptRef := false },
            ⟨"", ""⟩) events2).2.fullContent
        d now2 := by
    rw [handleApproval_eq skills2 sid2 now2 d events2 s2,
      if_neg (by simp [hIr2])]
  rw [e1, e2]
  exact ⟨finalizeSend_getLast_traces _ _ _,
    finalizeApproval_getLast_traces _ _ _ _⟩

/-- Witness for C10 at concrete inputs: a turn whose only tool invocation
never receives its `tool_end` finalizes a message whose frozen trace item
is forced to done (duration absent), and an approval turn with no tool
events finalizes a message with no traces record. -/
theorem c10_witness :
    (handleSend [] (some "sid") 0
        [.tool_start (some "t1") (some "web") "search" "🔍" none ""] .ok
        { initialChatState with input := "go" }).messages.getLast?.map
        Message.traces =
      some (some [{ id := some "t1", name := some "web", icon := "🔍"
                    status := TraceStatus.done, duration := none }]) ∧
    (handleApproval [] (some "sid") 1 .approve []
        initialChatState).messages.getLast?.map Message.traces =
      some none := by
  have h := c10_frozen_traces [] [] "sid" "sid" 0 1
    { initialChatState with input := "go" } initialChatState
    [.tool_start (some "t1") (some "web") "search" "🔍" none ""] []
    .ok .approve (by decide) rfl (by decide) (by decide)
  constructor
  · rw [h.1]; decide
  · rw [h.2]; decide
